import Mathlib

/-!
# Verification of the `vim-rust-lsp-bridge` transport core (`src/main.rs`)

A shallow embedding of the program's LSP framing codec, transport session and
command dispatcher, together with theorems settling the specification claims.

Modelling conventions:
* Byte streams are `List Nat` (each element a byte value `0..255`).  The
  subprocess's stdout is a finite byte list; end of list is end-of-file, at
  which point `read_line` returns `Ok(0)` with an empty line and `read_exact`
  fails with `UnexpectedEof`.
* `String`s that reach the wire are converted to bytes with `asciiBytes`;
  every string constant in this development is ASCII, for which this is
  exactly Rust's UTF-8 byte encoding (`str::len` counts these bytes).
* `usize`/`u32` are `Nat` with explicit range checks mirroring the overflow
  failure of `str::parse`.
* The outcome of Rust code that can panic (slice/`Vec` indexing out of
  bounds) or fail to terminate is made explicit with dedicated result
  constructors (`panic`, `hang`).
-/

/-- UTF-8 bytes of an ASCII string (all strings in this development are
ASCII, one byte per character). -/
def asciiBytes (s : String) : List Nat := s.data.map Char.toNat

/-- ASCII decimal digit byte (codes 48–57). -/
def isDigitByte (b : Nat) : Bool := 48 ≤ b && b ≤ 57

/-- ASCII whitespace byte: space, tab, LF, CR.  Models `str::trim` /
`char::is_whitespace` on the ASCII header text this program handles. -/
def isWsByte (b : Nat) : Bool := b == 32 || b == 9 || b == 10 || b == 13

/-- `hasPrefix p bs` is `str::starts_with`: `p` is a prefix of `bs`. -/
def hasPrefix : List Nat → List Nat → Bool
  | [], _ => true
  | _ :: _, [] => false
  | p :: ps, b :: bs => p == b && hasPrefix ps bs

/-- `str::trim`: strip whitespace bytes from both ends. -/
def trimBytes (bs : List Nat) : List Nat :=
  ((bs.dropWhile isWsByte).reverse.dropWhile isWsByte).reverse

/-- `str::parse` for an unsigned integer type with exclusive upper `bound`
(`2 ^ 64` for `usize`, `2 ^ 32` for `u32`): an optional leading `+`, then a
nonempty run of decimal digits; overflow past the bound is a parse error. -/
def parseNatBytes (bound : Nat) (bs : List Nat) : Option Nat :=
  let ds := if bs.head? = some 43 then bs.tail else bs
  if ds ≠ [] ∧ ds.all isDigitByte then
    let v := ds.foldl (fun a b => a * 10 + (b - 48)) 0
    if v < bound then some v else none
  else none

/-- Most-significant-first decimal digit values of `n`.  The first argument is
structural fuel (any fuel `≥ n` gives the true digit list); `Display` for
Rust's unsigned integers prints exactly these digits. -/
def digitsOfAux : Nat → Nat → List Nat → List Nat
  | 0, n, acc => n :: acc
  | f + 1, n, acc => if n < 10 then n :: acc else digitsOfAux f (n / 10) (n % 10 :: acc)

/-- Decimal digit values of `n`, most significant first. -/
def digitsOf (n : Nat) : List Nat := digitsOfAux n n []

/-- ASCII bytes of the standard decimal rendering of `n`
(what `format!("{}", n)` writes for an unsigned integer). -/
def natDecimal (n : Nat) : List Nat := (digitsOf n).map (· + 48)

/-- Bytes of `"Content-Length:"`, the prefix tested by
`line.starts_with("Content-Length:")` (15 bytes). -/
def clPrefixBytes : List Nat := asciiBytes "Content-Length:"

/-- Bytes of `"Content-Length: "`, the 16-byte header-name-plus-space that
`send_message` writes and whose length matches the code's `&line[16..]`. -/
def clHeaderBytes : List Nat := asciiBytes "Content-Length: "

/-- `send_message`'s framing:
`format!("Content-Length: {}\r\n\r\n{}", content.len(), content)` — the
declared length is the byte length of the payload. -/
def encodeFrame (payload : List Nat) : List Nat :=
  clHeaderBytes ++ natDecimal payload.length ++ [13, 10, 13, 10] ++ payload

/-- What one iteration of `read_response`'s header loop does with the line it
read (the result of processing the loop body, not counting the read itself). -/
inductive LineAct where
  /-- fall through to the next iteration, with this `content_length` state -/
  | keep (contentLength : Option Nat)
  /-- the line was `"\r\n"`: `break` out of the header loop -/
  | brk
  /-- `return Err(LspError::Protocol msg)` -/
  | perr (msg : String)
  /-- the byte slice `&line[16..]` is out of bounds: panic -/
  | pan
deriving DecidableEq

/-- The body of `read_response`'s header loop, for a nonempty `line`:
```
if line.starts_with("Content-Length:") {
    content_length = Some(line[16..].trim().parse::<usize>()
        .map_err(|_| LspError::Protocol("Invalid Content-Length".into()))?);
} else if line == "\r\n" { break; }
```
Any other line is ignored (an unrecognized header). -/
def lineAct (cl : Option Nat) (line : List Nat) : LineAct :=
  if hasPrefix clPrefixBytes line then
    if line.length < 16 then .pan
    else
      match parseNatBytes (2 ^ 64) (trimBytes (line.drop 16)) with
      | some n => .keep (some n)
      | none => .perr "Invalid Content-Length"
  else if line = [13, 10] then .brk
  else .keep cl

/-- Result of `read_response`'s header loop. -/
inductive HeadersResult where
  /-- loop left via `break`; carries the `content_length` state and the
  unconsumed remainder of the stream -/
  | done (contentLength : Option Nat) (rest : List Nat)
  | protocolError (msg : String)
  /-- the loop never terminates: once the stream is exhausted, `read_line`
  returns `Ok(0)` leaving `line` empty, and `if line.is_empty() { continue; }`
  re-reads the exhausted stream forever -/
  | hang
  | panic
deriving DecidableEq

/-- `read_response`'s header loop over a byte stream, fused with
`read_line` (which returns all bytes up to and including the first `\n`, or
the remaining bytes at end of stream).  `acc` is the part of the current line
read so far (no `\n` in it). -/
def scanHeaders (cl : Option Nat) (acc : List Nat) : List Nat → HeadersResult
  | [] =>
      -- End of stream.  If bytes are pending they form one final line
      -- (without a newline); afterwards — or immediately, if none are
      -- pending — `read_line` keeps returning an empty line and the loop
      -- spins forever.
      if acc = [] then .hang
      else
        match lineAct cl acc with
        | .keep _ => .hang
        | .brk => .done cl []
        | .perr m => .protocolError m
        | .pan => .panic
  | b :: bs =>
      if b = 10 then
        match lineAct cl (acc ++ [10]) with
        | .keep cl' => scanHeaders cl' [] bs
        | .brk => .done cl bs
        | .perr m => .protocolError m
        | .pan => .panic
      else scanHeaders cl (acc ++ [b]) bs

/-- Result of `read_response` up to (and including) the `read_exact` of the
payload: the framing-codec `decode` of the spec. -/
inductive FrameResult where
  | ok (payload rest : List Nat)
  | protocolError (msg : String)
  /-- `read_exact` hit end of stream before the declared length was
  satisfied (`ErrorKind::UnexpectedEof`) → `LspError::Io` -/
  | ioError
  | hang
  | panic
deriving DecidableEq

/-- `read_response`'s framing layer: run the header loop, then require
`Content-Length` to have been seen
(`content_length.ok_or(Protocol("Missing Content-Length"))`), then
`read_exact` exactly that many payload bytes. -/
def readFrame (stream : List Nat) : FrameResult :=
  match scanHeaders none [] stream with
  | .done none _ => .protocolError "Missing Content-Length"
  | .done (some n) rest =>
      if n ≤ rest.length then .ok (rest.take n) (rest.drop n) else .ioError
  | .protocolError m => .protocolError m
  | .hang => .hang
  | .panic => .panic

/-! ## Framing lemmas -/

lemma scanHeaders_line (cl : Option Nat) (acc xs rest : List Nat)
    (hx : ∀ b ∈ xs, b ≠ 10) :
    scanHeaders cl acc (xs ++ 10 :: rest) =
      match lineAct cl (acc ++ xs ++ [10]) with
      | .keep cl' => scanHeaders cl' [] rest
      | .brk => .done cl rest
      | .perr m => .protocolError m
      | .pan => .panic := by
  induction xs generalizing acc with
  | nil =>
      simp only [List.nil_append]
      rw [scanHeaders]
      simp
  | cons x xs ih =>
      have hx10 : x ≠ 10 := hx x (by simp)
      have hxs : ∀ b ∈ xs, b ≠ 10 := fun b hb => hx b (by simp [hb])
      simp only [List.cons_append]
      rw [scanHeaders]
      simp only [hx10, if_false]
      rw [ih (acc ++ [x]) hxs]
      simp [List.append_assoc]

lemma foldl_digitsOfAux (f : Nat) :
    ∀ n acc, (digitsOfAux f n acc).foldl (fun a d => a * 10 + d) 0 =
      acc.foldl (fun a d => a * 10 + d) n := by
  induction f with
  | zero => intro n acc; simp [digitsOfAux]
  | succ f ih =>
      intro n acc
      rw [digitsOfAux]
      by_cases h : n < 10
      · simp [h]
      · simp only [h, if_false]
        rw [ih (n / 10) (n % 10 :: acc)]
        simp only [List.foldl_cons]
        congr 1
        omega

lemma digitsOfAux_lt10 (f : Nat) :
    ∀ n acc, n ≤ f → (∀ d ∈ acc, d < 10) → ∀ d ∈ digitsOfAux f n acc, d < 10 := by
  induction f with
  | zero =>
      intro n acc hn hacc d hd
      simp [digitsOfAux] at hd
      rcases hd with h | h
      · omega
      · exact hacc d h
  | succ f ih =>
      intro n acc hn hacc d hd
      rw [digitsOfAux] at hd
      by_cases h : n < 10
      · simp [h] at hd
        rcases hd with h' | h'
        · omega
        · exact hacc d h'
      · simp only [h, if_false] at hd
        refine ih (n / 10) (n % 10 :: acc) (by omega) ?_ d hd
        intro e he
        simp at he
        rcases he with h' | h'
        · omega
        · exact hacc e h'

lemma digitsOfAux_ne_nil (f : Nat) : ∀ n acc, digitsOfAux f n acc ≠ [] := by
  induction f with
  | zero => intro n acc; simp [digitsOfAux]
  | succ f ih =>
      intro n acc
      rw [digitsOfAux]
      by_cases h : n < 10
      · simp [h]
      · simp only [h, if_false]
        exact ih (n / 10) (n % 10 :: acc)

lemma natDecimal_bytes (n : Nat) : ∀ b ∈ natDecimal n, 48 ≤ b ∧ b ≤ 57 := by
  intro b hb
  simp only [natDecimal, List.mem_map] at hb
  obtain ⟨d, hd, rfl⟩ := hb
  have := digitsOfAux_lt10 n n [] le_rfl (by simp) d hd
  omega

lemma natDecimal_ne_nil (n : Nat) : natDecimal n ≠ [] := by
  simp only [natDecimal, ne_eq, List.map_eq_nil_iff]
  exact digitsOfAux_ne_nil n n []

lemma foldl_sub48 (l : List Nat) (i : Nat) :
    (l.map (· + 48)).foldl (fun a b => a * 10 + (b - 48)) i =
      l.foldl (fun a d => a * 10 + d) i := by
  induction l generalizing i with
  | nil => rfl
  | cons d ds ih =>
      simp only [List.map_cons, List.foldl_cons]
      have h48 : d + 48 - 48 = d := by omega
      rw [h48, ih]

lemma parseNatBytes_natDecimal (n : Nat) (h : n < 2 ^ 64) :
    parseNatBytes (2 ^ 64) (natDecimal n) = some n := by
  have hb := natDecimal_bytes n
  have hne := natDecimal_ne_nil n
  obtain ⟨b0, bs, hcons⟩ : ∃ b0 bs, natDecimal n = b0 :: bs := by
    cases hn : natDecimal n with
    | nil => exact absurd hn hne
    | cons b0 bs => exact ⟨b0, bs, rfl⟩
  have hb0 : 48 ≤ b0 ∧ b0 ≤ 57 := hb b0 (by simp [hcons])
  have hhead : ¬(natDecimal n).head? = some 43 := by
    rw [hcons]
    simp only [List.head?_cons, Option.some.injEq]
    omega
  have hdig : (natDecimal n).all isDigitByte = true := by
    simp only [List.all_eq_true]
    intro b hbmem
    have := hb b hbmem
    simp only [isDigitByte, Bool.and_eq_true, decide_eq_true_eq]
    omega
  have hfold : (natDecimal n).foldl (fun a b => a * 10 + (b - 48)) 0 = n := by
    rw [natDecimal, foldl_sub48]
    simpa using foldl_digitsOfAux n n []
  unfold parseNatBytes
  dsimp only
  rw [if_neg hhead, if_pos ⟨hne, hdig⟩, hfold, if_pos h]

lemma dropWhile_head_digit (b0 : Nat) (l : List Nat) (h : isDigitByte b0 = true) :
    List.dropWhile isWsByte (b0 :: l) = b0 :: l := by
  have hws : isWsByte b0 = false := by
    simp only [isDigitByte, Bool.and_eq_true, decide_eq_true_eq] at h
    simp only [isWsByte, Bool.or_eq_false_iff, beq_eq_false_iff_ne, ne_eq]
    omega
  simp [List.dropWhile_cons, hws]

lemma dropWhile_digit_list (l : List Nat) (h : ∀ b ∈ l, isDigitByte b = true) :
    l.dropWhile isWsByte = l := by
  cases l with
  | nil => rfl
  | cons b bs => exact dropWhile_head_digit b bs (h b (by simp))

lemma trimBytes_digits (ds : List Nat) (hne : ds ≠ [])
    (hd : ∀ b ∈ ds, isDigitByte b = true) :
    trimBytes (ds ++ [13, 10]) = ds := by
  obtain ⟨b0, bs, rfl⟩ : ∃ b0 bs, ds = b0 :: bs := by
    cases ds with
    | nil => exact absurd rfl hne
    | cons b0 bs => exact ⟨b0, bs, rfl⟩
  simp only [trimBytes, List.cons_append]
  rw [dropWhile_head_digit b0 (bs ++ [13, 10]) (hd b0 (by simp))]
  have hrev : (b0 :: (bs ++ [13, 10])).reverse = 10 :: 13 :: (bs.reverse ++ [b0]) := by
    simp
  rw [hrev, List.dropWhile_cons, List.dropWhile_cons]
  simp only [show isWsByte 10 = true from rfl, show isWsByte 13 = true from rfl, if_true]
  rw [dropWhile_digit_list (bs.reverse ++ [b0]) ?tl]
  case tl =>
    intro b hbmem
    simp only [List.mem_append, List.mem_reverse, List.mem_singleton] at hbmem
    rcases hbmem with h' | h'
    · exact hd b (by simp [h'])
    · exact hd b (by simp [h'])
  · simp
lemma hasPrefix_append (p t : List Nat) : hasPrefix p (p ++ t) = true := by
  induction p with
  | nil => rfl
  | cons x xs ih => simp [hasPrefix, ih]


lemma clHeaderBytes_eq : clHeaderBytes = clPrefixBytes ++ [32] := by decide

lemma natDecimal_digitBytes (L : Nat) : ∀ b ∈ natDecimal L, isDigitByte b = true := by
  intro b hb
  have := natDecimal_bytes L b hb
  simp only [isDigitByte, Bool.and_eq_true, decide_eq_true_eq]
  omega

/-- Header line processing for the standard header `"Content-Length: <L>\r\n"`
that `send_message` itself writes: the loop records `Some L`. -/
lemma lineAct_std (cl : Option Nat) (L : Nat) (hL : L < 2 ^ 64) :
    lineAct cl (clHeaderBytes ++ natDecimal L ++ [13, 10]) = .keep (some L) := by
  have hline : clHeaderBytes ++ natDecimal L ++ [13, 10] =
      clPrefixBytes ++ (32 :: (natDecimal L ++ [13, 10])) := by
    rw [clHeaderBytes_eq]
    simp
  unfold lineAct
  rw [hline, hasPrefix_append, if_pos rfl]
  have hlen : ¬(clPrefixBytes ++ (32 :: (natDecimal L ++ [13, 10]))).length < 16 := by
    simp [clPrefixBytes, asciiBytes]
  rw [if_neg hlen]
  have hdrop : (clPrefixBytes ++ (32 :: (natDecimal L ++ [13, 10]))).drop 16 =
      natDecimal L ++ [13, 10] := by
    have h16 : (16 : Nat) = (clPrefixBytes ++ [32]).length := by decide
    have hassoc : clPrefixBytes ++ (32 :: (natDecimal L ++ [13, 10])) =
        (clPrefixBytes ++ [32]) ++ (natDecimal L ++ [13, 10]) := by simp
    rw [hassoc, h16, List.drop_left]
  rw [hdrop, trimBytes_digits (natDecimal L) (natDecimal_ne_nil L) (natDecimal_digitBytes L),
    parseNatBytes_natDecimal L hL]

lemma clHeaderBytes_ne10 : ∀ b ∈ clHeaderBytes, b ≠ 10 := by decide

lemma lineAct_crlf (cl : Option Nat) : lineAct cl [13, 10] = .brk := by
  have h : hasPrefix clPrefixBytes [13, 10] = false := by decide
  unfold lineAct
  simp [h]

/-- Processing a well-formed header block
`"Content-Length: <L>\r\n\r\n"`: the header loop terminates via `break`
having recorded `Some L`, leaving exactly the bytes after the blank line. -/
lemma scanHeaders_std (cl : Option Nat) (L : Nat) (hL : L < 2 ^ 64) (rest : List Nat) :
    scanHeaders cl [] (clHeaderBytes ++ natDecimal L ++ [13, 10, 13, 10] ++ rest) =
      .done (some L) rest := by
  have hsplit : clHeaderBytes ++ natDecimal L ++ [13, 10, 13, 10] ++ rest =
      (clHeaderBytes ++ natDecimal L ++ [13]) ++ 10 :: (13 :: 10 :: rest) := by
    simp
  rw [hsplit, scanHeaders_line]
  case hx =>
    intro b hb
    simp only [List.append_assoc, List.mem_append, List.mem_singleton] at hb
    rcases hb with hb | hb | hb
    · exact clHeaderBytes_ne10 b hb
    · have := natDecimal_bytes L b hb
      omega
    · omega
  have hline : [] ++ (clHeaderBytes ++ natDecimal L ++ [13]) ++ [10] =
      clHeaderBytes ++ natDecimal L ++ [13, 10] := by simp
  rw [hline, lineAct_std cl L hL]
  show scanHeaders (some L) [] (13 :: 10 :: rest) = .done (some L) rest
  have h2 : (13 : Nat) :: 10 :: rest = [13] ++ 10 :: rest := by simp
  rw [h2, scanHeaders_line]
  case hx =>
    intro b hb
    simp only [List.mem_singleton] at hb
    omega
  simp [lineAct_crlf]

/-- `read_response`'s framing layer on a well-formed frame declaring length
`L` over a payload `p`: succeeds consuming exactly `L` bytes when available,
and fails with `IoError` when the stream closes short. -/
lemma readFrame_std (L : Nat) (hL : L < 2 ^ 64) (p : List Nat) :
    readFrame (clHeaderBytes ++ natDecimal L ++ [13, 10, 13, 10] ++ p) =
      if L ≤ p.length then .ok (p.take L) (p.drop L) else .ioError := by
  unfold readFrame
  rw [scanHeaders_std none L hL p]

/-! ## JSON values

`serde_json::Value` restricted to the shapes this program exchanges:
null, booleans, non-negative integers, ASCII strings without escape
sequences, arrays and objects.  serde_json's default `Map` is a `BTreeMap`,
so `Value::to_string()` emits object keys in ascending order; every concrete
object in this development is written with its keys already sorted, matching
what the running program serializes. -/

inductive Json where
  | null
  | bool (b : Bool)
  | num (n : Nat)
  | str (s : String)
  | arr (elems : List Json)
  | obj (fields : List (String × Json))

mutual

/-- Compact serialization, as `serde_json::Value`'s `Display`
(`request.to_string()` / `println!("{}", response)`): no spaces, `"k":v`
pairs joined by commas. -/
def renderJson : Json → String
  | .null => "null"
  | .bool true => "true"
  | .bool false => "false"
  | .num n => Nat.repr n
  | .str s => "\"" ++ s ++ "\""
  | .arr es => "[" ++ renderArr es ++ "]"
  | .obj fs => "\x7b" ++ renderObj fs ++ "\x7d"

def renderArr : List Json → String
  | [] => ""
  | [e] => renderJson e
  | e :: es => renderJson e ++ "," ++ renderArr es

def renderObj : List (String × Json) → String
  | [] => ""
  | [(k, v)] => "\"" ++ k ++ "\":" ++ renderJson v
  | (k, v) :: fs => "\"" ++ k ++ "\":" ++ renderJson v ++ "," ++ renderObj fs

end

/-! JSON parsing (`serde_json::from_slice`), for the same subset of JSON.
The first argument of each function is structural fuel; since every parsing
step consumes at least one byte before recursing, fuel `length + 1` is always
sufficient, and `parseJson` passes exactly that. -/

/-- Skip JSON insignificant whitespace. -/
def skipWsBytes (bs : List Nat) : List Nat := bs.dropWhile isWsByte

/-- Parse the remainder of a JSON string after the opening `"`: bytes up to
the closing `"`.  Escape sequences (backslash) are outside the modelled
subset and rejected. -/
def parseStrBody : List Nat → Option (String × List Nat)
  | [] => none
  | 34 :: rest => some ("", rest)
  | 92 :: _ => none
  | b :: rest =>
      match parseStrBody rest with
      | some (s, r) => some (String.mk (Char.ofNat b :: s.data), r)
      | none => none

/-- Parse a non-negative integer literal. -/
def parseNumTok (bs : List Nat) : Option (Json × List Nat) :=
  let ds := bs.takeWhile isDigitByte
  if ds = [] then none
  else some (.num (ds.foldl (fun a b => a * 10 + (b - 48)) 0), bs.dropWhile isDigitByte)

mutual

def parseValue : Nat → List Nat → Option (Json × List Nat)
  | 0, _ => none
  | f + 1, bs =>
      match skipWsBytes bs with
      | 110 :: 117 :: 108 :: 108 :: rest => some (.null, rest)
      | 116 :: 114 :: 117 :: 101 :: rest => some (.bool true, rest)
      | 102 :: 97 :: 108 :: 115 :: 101 :: rest => some (.bool false, rest)
      | 34 :: rest =>
          match parseStrBody rest with
          | some (s, r) => some (.str s, r)
          | none => none
      | 91 :: rest =>
          (match skipWsBytes rest with
           | 93 :: r => some (.arr [], r)
           | _ => match parseArrTail f rest with
                  | some (es, r) => some (.arr es, r)
                  | none => none)
      | 123 :: rest =>
          (match skipWsBytes rest with
           | 125 :: r => some (.obj [], r)
           | _ => match parseObjTail f rest with
                  | some (fs, r) => some (.obj fs, r)
                  | none => none)
      | other => parseNumTok other

/-- Elements of a (nonempty) array, after the opening `[`. -/
def parseArrTail : Nat → List Nat → Option (List Json × List Nat)
  | 0, _ => none
  | f + 1, bs =>
      match parseValue f bs with
      | none => none
      | some (v, r) =>
          match skipWsBytes r with
          | 44 :: r2 =>
              (match parseArrTail f r2 with
               | some (vs, r3) => some (v :: vs, r3)
               | none => none)
          | 93 :: r2 => some ([v], r2)
          | _ => none

/-- Fields of a (nonempty) object, after the opening `{`. -/
def parseObjTail : Nat → List Nat → Option (List (String × Json) × List Nat)
  | 0, _ => none
  | f + 1, bs =>
      match skipWsBytes bs with
      | 34 :: r =>
          (match parseStrBody r with
           | none => none
           | some (k, r1) =>
               match skipWsBytes r1 with
               | 58 :: r2 =>
                   (match parseValue f r2 with
                    | none => none
                    | some (v, r3) =>
                        match skipWsBytes r3 with
                        | 44 :: r4 =>
                            (match parseObjTail f r4 with
                             | some (fs, r5) => some ((k, v) :: fs, r5)
                             | none => none)
                        | 125 :: r4 => some ([(k, v)], r4)
                        | _ => none)
               | _ => none)
      | _ => none

end

/-- `serde_json::from_slice`: one JSON value spanning the whole payload
(trailing whitespace allowed, trailing garbage an error). -/
def parseJson (bs : List Nat) : Option Json :=
  match parseValue (bs.length + 1) bs with
  | some (v, r) => if skipWsBytes r = [] then some v else none
  | none => none

/-! ## Transport session and command dispatcher -/

/-- The code's `LspError` enum: `Io`, `Json`, `Protocol(String)`,
`ParseInt` (the spec's `IoError`, `DecodeError`, `ProtocolError`,
`InvalidArgument`). -/
inductive LspErr where
  | io
  | json
  | protocol (msg : String)
  | parseInt
deriving DecidableEq

/-- Result of running a piece of the bridge: normal return, an `Err` that
propagates via `?`, divergence, or a Rust panic. -/
inductive Outcome (α : Type) where
  | ok (a : α)
  | err (e : LspErr)
  | hang
  | panic
deriving DecidableEq

/-- Observable state of one `LspConnection` session: the bytes still pending
on the subprocess's stdout, the frames written so far to its stdin (oldest
first), and the lines printed so far to the bridge's own stdout. -/
structure ConnState where
  fromServer : List Nat
  sentFrames : List (List Nat)
  printed : List String
deriving DecidableEq

/-- `send_message(content)`: frame the UTF-8 bytes of `content` with
`encodeFrame` and write the frame to the subprocess's stdin.  (The child's
piped stdin always exists, so the `Failed to get stdin` branch is
unreachable; pipe-level write failures are outside the modelled state.) -/
def sendMessage (st : ConnState) (content : String) : ConnState :=
  { st with sentFrames := st.sentFrames ++ [encodeFrame (asciiBytes content)] }

/-- `read_response()`: decode one frame from the subprocess's stdout, then
parse its payload as JSON (`serde_json::from_slice`); a framing
`ProtocolError`, an `IoError` at stream closure, a JSON `DecodeError`, the
header loop's divergence at EOF, and the `&line[16..]` panic all surface
unchanged. -/
def readResponse (st : ConnState) : ConnState × Outcome Json :=
  match readFrame st.fromServer with
  | .ok payload rest =>
      (match parseJson payload with
       | some v => ({ st with fromServer := rest }, .ok v)
       | none => ({ st with fromServer := rest }, .err .json))
  | .protocolError m => (st, .err (.protocol m))
  | .ioError => (st, .err .io)
  | .hang => (st, .hang)
  | .panic => (st, .panic)

/-- `line.parse::<u32>()`. -/
def parseU32 (s : String) : Option Nat := parseNatBytes (2 ^ 32) (asciiBytes s)

/-- The `json!` request of `goto_definition` (object keys in the sorted
order `serde_json` serializes them in). -/
def definitionRequest (uri : String) (ln col : Nat) : Json :=
  .obj [("id", .num 2), ("jsonrpc", .str "2.0"),
        ("method", .str "textDocument/definition"),
        ("params", .obj
          [("position", .obj [("character", .num col), ("line", .num ln)]),
           ("textDocument", .obj [("uri", .str uri)])])]

/-- The `json!` request of `hover`. -/
def hoverRequest (uri : String) (ln col : Nat) : Json :=
  .obj [("id", .num 3), ("jsonrpc", .str "2.0"),
        ("method", .str "textDocument/hover"),
        ("params", .obj
          [("position", .obj [("character", .num col), ("line", .num ln)]),
           ("textDocument", .obj [("uri", .str uri)])])]

/-- The `json!` request of `completion`. -/
def completionRequest (uri : String) (ln col : Nat) : Json :=
  .obj [("id", .num 4), ("jsonrpc", .str "2.0"),
        ("method", .str "textDocument/completion"),
        ("params", .obj
          [("position", .obj [("character", .num col), ("line", .num ln)]),
           ("textDocument", .obj [("uri", .str uri)])])]

/-- Shared tail of the three intent methods:
`send_message(&request.to_string())?`, `read_response()?`, then
`println!("<PREFIX>: {}", response)`. -/
def exchange (st : ConnState) (req : Json) (prefixStr : String) :
    ConnState × Outcome Unit :=
  let st1 := sendMessage st (renderJson req)
  match readResponse st1 with
  | (st2, .ok resp) =>
      ({ st2 with printed := st2.printed ++ [prefixStr ++ ": " ++ renderJson resp] },
       .ok ())
  | (st2, .err e) => (st2, .err e)
  | (st2, .hang) => (st2, .hang)
  | (st2, .panic) => (st2, .panic)

/-- `goto_definition(uri, line, col)`: `line.parse::<u32>()?` then
`col.parse::<u32>()?` (each failure propagates as `LspError::ParseInt`
before anything is sent), then the request/response exchange. -/
def gotoDefinition (st : ConnState) (uri lineArg colArg : String) :
    ConnState × Outcome Unit :=
  match parseU32 lineArg with
  | none => (st, .err .parseInt)
  | some ln =>
  match parseU32 colArg with
  | none => (st, .err .parseInt)
  | some col => exchange st (definitionRequest uri ln col) "DEFINITION_RESPONSE"

/-- `hover(uri, line, col)`. -/
def hover (st : ConnState) (uri lineArg colArg : String) :
    ConnState × Outcome Unit :=
  match parseU32 lineArg with
  | none => (st, .err .parseInt)
  | some ln =>
  match parseU32 colArg with
  | none => (st, .err .parseInt)
  | some col => exchange st (hoverRequest uri ln col) "HOVER_RESPONSE"

/-- `completion(uri, line, col)`. -/
def completion (st : ConnState) (uri lineArg colArg : String) :
    ConnState × Outcome Unit :=
  match parseU32 lineArg with
  | none => (st, .err .parseInt)
  | some ln =>
  match parseU32 colArg with
  | none => (st, .err .parseInt)
  | some col => exchange st (completionRequest uri ln col) "COMPLETION_RESPONSE"

/-- The token-consuming half of `str::split_whitespace`: the longest
non-whitespace prefix, and what follows it. -/
def takeTok : List Char → List Char × List Char
  | [] => ([], [])
  | c :: cs =>
      if c.isWhitespace then ([], c :: cs)
      else (c :: (takeTok cs).1, (takeTok cs).2)

/-- `str::split_whitespace`, with structural fuel (every step consumes at
least one character, so fuel `length + 1` — which `splitWhite` passes — is
always sufficient). -/
def splitWsF : Nat → List Char → List String
  | 0, _ => []
  | _ + 1, [] => []
  | f + 1, c :: cs =>
      if c.isWhitespace then splitWsF f cs
      else String.mk (c :: (takeTok cs).1) :: splitWsF f (takeTok cs).2

/-- `command.split_whitespace().collect::<Vec<_>>()`. -/
def splitWhite (cmd : String) : List String := splitWsF (cmd.data.length + 1) cmd.data

/-- `handle_vim_command(command)`:
```
let parts: Vec<&str> = command.split_whitespace().collect();
if parts.is_empty() { return Ok(()); }
match parts[0] {
    "DEFINITION" if parts.len() == 4 => self.goto_definition(parts[1], parts[2], parts[3]),
    "HOVER" if parts.len() == 3 => self.hover(parts[1], parts[2], parts[3]),
    "COMPLETION" if parts.len() == 3 => self.completion(parts[1], parts[2], parts[3]),
    _ => { error!("Unknown command: {}", command); Ok(()) }
}
```
`Vec` indexing out of bounds is a Rust panic, modelled by the `.panic`
outcome; the `error!` log line is not part of the modelled state. -/
def handleVimCommand (st : ConnState) (cmd : String) : ConnState × Outcome Unit :=
  let parts := splitWhite cmd
  if parts.isEmpty then (st, .ok ())
  else
    match parts.head? with
    | none => (st, .panic)
    | some p0 =>
      if p0 = "DEFINITION" ∧ parts.length = 4 then
        match parts.get? 1, parts.get? 2, parts.get? 3 with
        | some u, some l, some c => gotoDefinition st u l c
        | _, _, _ => (st, .panic)
      else if p0 = "HOVER" ∧ parts.length = 3 then
        match parts.get? 1, parts.get? 2, parts.get? 3 with
        | some u, some l, some c => hover st u l c
        | _, _, _ => (st, .panic)
      else if p0 = "COMPLETION" ∧ parts.length = 3 then
        match parts.get? 1, parts.get? 2, parts.get? 3 with
        | some u, some l, some c => completion st u l c
        | _, _, _ => (st, .panic)
      else (st, .ok ())

/-- The command loop of `run_lsp_bridge`:
```
for line in stdin.lock().lines() {
    let line = line?;
    lsp.handle_vim_command(&line).await?;
}
```
The `?` propagates the first command error out of the loop (the process then
logs it and exits non-zero); a panic or divergence inside a command likewise
ends the loop. -/
def runLoop (st : ConnState) : List String → ConnState × Outcome Unit
  | [] => (st, .ok ())
  | l :: ls =>
      match handleVimCommand st l with
      | (st', .ok _) => runLoop st' ls
      | (st', .err e) => (st', .err e)
      | (st', .hang) => (st', .hang)
      | (st', .panic) => (st', .panic)

/-! ## Dispatcher lemmas -/

lemma splitWsF_all_ws (f : Nat) :
    ∀ cs : List Char, (∀ c ∈ cs, c.isWhitespace) → splitWsF f cs = [] := by
  induction f with
  | zero => intro cs _; rfl
  | succ f ih =>
      intro cs h
      cases cs with
      | nil => rfl
      | cons c cs =>
          rw [splitWsF, if_pos (h c (by simp))]
          exact ih cs (fun c' hc' => h c' (by simp [hc']))

/-! ## The mock subprocess scenario (spec §8's end-to-end test)

A canned `textDocument/definition` JSON-RPC response, and a session state in
which the subprocess has that response framed and pending on its stdout. -/

/-- A canned JSON-RPC `textDocument/definition` response (keys sorted, as
serde_json serializes). -/
def cannedResponse : Json :=
  .obj [("id", .num 2), ("jsonrpc", .str "2.0"),
        ("result", .arr [.obj
          [("range", .obj
            [("end", .obj [("character", .num 5), ("line", .num 10)]),
             ("start", .obj [("character", .num 4), ("line", .num 10)])]),
           ("uri", .str "file:///a.rs")]])]

/-- Session state with the framed canned response pending from the mock
subprocess, nothing yet sent and nothing yet printed. -/
def mockState : ConnState :=
  ⟨encodeFrame (asciiBytes (renderJson cannedResponse)), [], []⟩

/-! ## Claims -/

/-- C1 (confirmed).  Framing round-trip: for every byte payload (in
particular any valid JSON payload, empty object or multi-byte UTF-8 text
included), decoding the encoding of the payload returns the payload
unchanged and consumes the whole frame; the declared `Content-Length` is
`payload.length`, the count of payload *bytes*.  (The only caveat is the
physical bound `length < 2^64`, where `usize` itself overflows.) -/
theorem frame_round_trip (payload : List Nat) (h : payload.length < 2 ^ 64) :
    readFrame (encodeFrame payload) = .ok payload [] := by
  unfold encodeFrame
  rw [readFrame_std payload.length h payload, if_pos le_rfl]
  simp

/-- Witness for C1, at the UTF-8 bytes of `{"a":"é"}` — 10 bytes for 9
characters, so the length declared and decoded is the byte count. -/
theorem frame_round_trip_witness :
    [123, 34, 97, 34, 58, 34, 195, 169, 34, 125].length < 2 ^ 64 ∧
    readFrame (encodeFrame [123, 34, 97, 34, 58, 34, 195, 169, 34, 125]) =
      .ok [123, 34, 97, 34, 58, 34, 195, 169, 34, 125] [] :=
  ⟨by decide, frame_round_trip [123, 34, 97, 34, 58, 34, 195, 169, 34, 125] (by decide)⟩

set_option maxRecDepth 100000 in
/-- C2 counterexample.  The claim says the command loop continues with the
next input line after an argument-parse failure.  It does not: with a parse
failure in the first command and a second command that would succeed (a
framed response is pending from the subprocess), the loop stops at the first
command with the `ParseInt` error — nothing is sent, printed, or consumed,
and the second command is never processed. -/
theorem parse_error_terminates_loop_cex :
    runLoop mockState
      ["DEFINITION file:///a.rs x 4", "DEFINITION file:///a.rs 10 4"] =
      (mockState, .err .parseInt) ∧
    runLoop mockState ["DEFINITION file:///a.rs 10 4"] =
      (⟨[], [encodeFrame (asciiBytes (renderJson (definitionRequest "file:///a.rs" 10 4)))],
        ["DEFINITION_RESPONSE: " ++ renderJson cannedResponse]⟩, .ok ()) :=
  ⟨rfl, rfl⟩

/-- C2 (corrected).  `line` and `column` are parsed as non-negative `u32`
integers; if parsing either argument fails, the intent method returns the
`ParseInt` error (the code's `InvalidArgument`) with the session state
unchanged — in particular no request is sent — but the error then propagates
out of `handle_vim_command` through the loop's `?`, terminating the command
loop (the bridge exits non-zero) instead of continuing with the next input
line. -/
theorem parse_error_yields_parseInt (st : ConnState) (uri lineArg colArg : String)
    (h : parseU32 lineArg = none ∨ parseU32 colArg = none) (ls : List String) :
    gotoDefinition st uri lineArg colArg = (st, .err .parseInt) ∧
    hover st uri lineArg colArg = (st, .err .parseInt) ∧
    completion st uri lineArg colArg = (st, .err .parseInt) ∧
    (∀ cmd st' e, handleVimCommand st cmd = (st', .err e) →
      runLoop st (cmd :: ls) = (st', .err e)) := by
  refine ⟨?_, ?_, ?_, ?_⟩
  case _ =>
    unfold gotoDefinition
    rcases h with h | h
    · rw [h]
    · cases hl : parseU32 lineArg <;> rw [h]
  case _ =>
    unfold hover
    rcases h with h | h
    · rw [h]
    · cases hl : parseU32 lineArg <;> rw [h]
  case _ =>
    unfold completion
    rcases h with h | h
    · rw [h]
    · cases hl : parseU32 lineArg <;> rw [h]
  case _ =>
    intro cmd st' e hcmd
    unfold runLoop
    rw [hcmd]

/-- Witness for C2's amended theorem at the non-numeric line argument
`"x"`. -/
theorem parse_error_yields_parseInt_witness :
    gotoDefinition ⟨[], [], []⟩ "file:///a.rs" "x" "4" = (⟨[], [], []⟩, .err .parseInt) :=
  (parse_error_yields_parseInt ⟨[], [], []⟩ "file:///a.rs" "x" "4"
    (Or.inl (by decide)) []).1

/-- C3 (code bug).  The claim — matching the spec — says a stream that ends
before a complete header block makes the pending `read_response` fail with
`IoError`.  The code instead loops forever: at end of stream `read_line`
returns `Ok(0)` leaving the line empty, and `if line.is_empty() { continue; }`
re-reads the exhausted stream without ever failing.  Evaluated at an
immediately-closed stream, a stream closed after one complete header line,
and a stream closed in the middle of a header line, the read diverges. -/
theorem header_eof_spins :
    readFrame [] = .hang ∧
    readFrame (asciiBytes "Content-Length: 5\r\n") = .hang ∧
    readFrame (asciiBytes "Content-Length: 5") = .hang := by
  refine ⟨by decide, by decide, by decide⟩

/-- C4 (code bug).  The claim says a command whose argument count does not
match its intent's requirements is reported and handled without aborting.
But `"HOVER"`/`"COMPLETION"` commands with exactly 3 whitespace-separated
parts pass the `parts.len() == 3` guard and then evaluate `parts[3]`, which
is out of bounds: handling `HOVER <uri> <line>` panics instead of returning.
(Unknown intents, and a wrong-count `DEFINITION`, do return normally with
the state unchanged, as the claim says.) -/
theorem arity_mismatch_panics (st : ConnState) :
    handleVimCommand st "HOVER file:///a.rs 1" = (st, .panic) ∧
    handleVimCommand st "COMPLETION file:///a.rs 1" = (st, .panic) ∧
    handleVimCommand st "FROBNICATE a b c" = (st, .ok ()) ∧
    handleVimCommand st "DEFINITION file:///a.rs 10" = (st, .ok ()) :=
  ⟨rfl, rfl, rfl, rfl⟩

set_option maxRecDepth 100000 in
/-- C5 (code bug).  The claim — matching the spec's intent table — says the
hover and completion intents with their three positional arguments issue
`textDocument/hover` / `textDocument/completion` requests.  The dispatch
guards require `parts.len() == 3`, but a three-argument command has four
whitespace-separated parts, so such commands fall through to the unknown-
command arm: nothing is sent and the session state is unchanged.  The
`hover` method itself, called directly with the three arguments, does build
and send the `textDocument/hover` request with the claimed parameter shape
(last conjunct, against the mock subprocess) — the bug is purely the
dispatch guard, which should be `parts.len() == 4` as in `DEFINITION`. -/
theorem hover_completion_dispatch_bug (st : ConnState) :
    handleVimCommand st "HOVER file:///a.rs 10 4" = (st, .ok ()) ∧
    handleVimCommand st "COMPLETION file:///a.rs 10 4" = (st, .ok ()) ∧
    hover mockState "file:///a.rs" "10" "4" =
      (⟨[], [encodeFrame (asciiBytes (renderJson (hoverRequest "file:///a.rs" 10 4)))],
        ["HOVER_RESPONSE: " ++ renderJson cannedResponse]⟩, .ok ()) :=
  ⟨rfl, rfl, rfl⟩

/-- C6 counterexample.  The claim says a blank line before the headers is
skipped and not treated as the header-block terminator.  Prepending one
CRLF to a well-formed frame — which decodes fine on its own (second
conjunct) — makes the header loop `break` immediately with no
`Content-Length` recorded, yielding `ProtocolError` instead of the payload:
the blank line *was* treated as the terminator. -/
theorem leading_blank_line_cex :
    readFrame (13 :: 10 :: encodeFrame (asciiBytes "{}")) =
      .protocolError "Missing Content-Length" ∧
    readFrame (encodeFrame (asciiBytes "{}")) = .ok (asciiBytes "{}") [] :=
  ⟨by decide, by decide⟩

/-- C6 (corrected).  `read_response` treats a CRLF line as the header-block
terminator wherever it occurs: a blank line arriving before any header line
ends the header block at once, and (no `Content-Length` having been seen)
the read fails with `ProtocolError "Missing Content-Length"` rather than
skipping the blank line.  (The code's `line.is_empty()` check only matches
the empty string `read_line` produces at end of stream, not a blank
`"\r\n"` line.) -/
theorem leading_blank_line_terminates (rest : List Nat) :
    readFrame (13 :: 10 :: rest) = .protocolError "Missing Content-Length" := by
  unfold readFrame
  have h : (13 : Nat) :: 10 :: rest = [13] ++ 10 :: rest := by simp
  rw [h, scanHeaders_line]
  case hx =>
    intro b hb
    simp only [List.mem_singleton] at hb
    omega
  simp [lineAct_crlf]

/-- C7 counterexample.  The claim says decode extracts the integer following
`Content-Length:` (trimmed of whitespace).  The code slices `&line[16..]`,
but `"Content-Length:"` is 15 characters, so for a header written without a
space after the colon the first digit is skipped: `"Content-Length:55"`
silently parses as length 5 — the read returns 5 payload bytes, not the 55
the claim's extraction would give. -/
theorem content_length_extraction_cex :
    readFrame (asciiBytes "Content-Length:55\r\n\r\n" ++ List.replicate 55 65) =
      .ok (List.replicate 5 65) (List.replicate 50 65) ∧
    readFrame (asciiBytes "Content-Length:55\r\n\r\n" ++ List.replicate 55 65) ≠
      .ok (List.replicate 55 65) [] :=
  ⟨by decide, by decide⟩

/-- C7 (corrected).  `read_response` parses, trimmed of whitespace, the
bytes of the `Content-Length` line after its first 16 — the header name
plus exactly one following character — so with the standard single-space
header `"Content-Length: <n>"` it extracts `n` (first conjunct).  A
non-numeric remainder yields `ProtocolError "Invalid Content-Length"`, and
a header block ending with no `Content-Length` seen yields
`ProtocolError "Missing Content-Length"` — never a silently assumed
default. -/
theorem content_length_extraction :
    (∀ (L : Nat) (rest : List Nat), L < 2 ^ 64 →
      scanHeaders none [] (clHeaderBytes ++ natDecimal L ++ [13, 10, 13, 10] ++ rest) =
        .done (some L) rest) ∧
    readFrame (asciiBytes "Content-Length: abc\r\n\r\n") =
      .protocolError "Invalid Content-Length" ∧
    readFrame (asciiBytes "X-Other: 1\r\n\r\n{}") =
      .protocolError "Missing Content-Length" :=
  ⟨fun L rest hL => scanHeaders_std none L hL rest, by decide, by decide⟩

/-- Witness for C7's amended theorem: the header declaring 7 followed by a
blank line leaves the loop with `Some 7` and the two remaining bytes. -/
theorem content_length_extraction_witness :
    scanHeaders none [] (clHeaderBytes ++ natDecimal 7 ++ [13, 10, 13, 10] ++ [65, 66]) =
      .done (some 7) [65, 66] :=
  content_length_extraction.1 7 [65, 66] (by decide)

/-- C8 (confirmed).  A well-formed header declaring a `Content-Length`
larger than the bytes available before the stream closes makes `read_exact`
fail with `UnexpectedEof` once the stream is exhausted: the read yields
`IoError`, not `ProtocolError`, since the header itself was well-formed. -/
theorem short_payload_io_error (L : Nat) (hL : L < 2 ^ 64) (p : List Nat)
    (hshort : p.length < L) :
    readFrame (clHeaderBytes ++ natDecimal L ++ [13, 10, 13, 10] ++ p) = .ioError := by
  rw [readFrame_std L hL p, if_neg (by omega)]

/-- Witness for C8: a header declaring 5 bytes over a stream carrying only
the two bytes of `{}`. -/
theorem short_payload_io_error_witness :
    [123, 125].length < 5 ∧
    readFrame (clHeaderBytes ++ natDecimal 5 ++ [13, 10, 13, 10] ++ [123, 125]) = .ioError :=
  ⟨by decide, short_payload_io_error 5 (by decide) [123, 125] (by decide)⟩

set_option maxRecDepth 100000 in
/-- C9 (confirmed).  Processing `DEFINITION file:///a.rs 10 4` against a
mock subprocess whose stdout holds a framed canned `textDocument/definition`
response: exactly one frame is sent — the `textDocument/definition` request
whose params carry `position: {line: 10, character: 4}` and
`textDocument: {uri: "file:///a.rs"}` (second conjunct spells its shape) —
the pending response is consumed in full, and exactly the line
`DEFINITION_RESPONSE: <response json>` is printed. -/
theorem definition_end_to_end :
    handleVimCommand mockState "DEFINITION file:///a.rs 10 4" =
      (⟨[], [encodeFrame (asciiBytes (renderJson (definitionRequest "file:///a.rs" 10 4)))],
        ["DEFINITION_RESPONSE: " ++ renderJson cannedResponse]⟩, .ok ()) ∧
    definitionRequest "file:///a.rs" 10 4 =
      .obj [("id", .num 2), ("jsonrpc", .str "2.0"),
            ("method", .str "textDocument/definition"),
            ("params", .obj
              [("position", .obj [("character", .num 4), ("line", .num 10)]),
               ("textDocument", .obj [("uri", .str "file:///a.rs")])])] :=
  ⟨rfl, rfl⟩

/-- C10 (confirmed).  An input line that is empty or all whitespace splits
into no parts, so `handle_vim_command` returns `Ok(())` at once: nothing is
sent to or read from the subprocess, nothing is printed, and the session
state is unchanged. -/
theorem blank_command_is_noop (st : ConnState) (cmd : String)
    (h : ∀ c ∈ cmd.data, c.isWhitespace) :
    handleVimCommand st cmd = (st, .ok ()) := by
  have hparts : splitWhite cmd = [] := splitWsF_all_ws _ cmd.data h
  simp only [handleVimCommand, hparts]
  rfl

/-- Witness for C10 at the whitespace-only command `" \t "`. -/
theorem blank_command_is_noop_witness :
    (∀ c ∈ (" \t " : String).data, c.isWhitespace) ∧
    handleVimCommand ⟨[], [], []⟩ " \t " = (⟨[], [], []⟩, .ok ()) :=
  ⟨by decide, blank_command_is_noop ⟨[], [], []⟩ " \t " (by decide)⟩
